import Mathlib

/-!
Verification of the VoiceFlow push-to-talk dictation utility.

This file gives a shallow embedding, in Lean 4, of the core components of the
repository and proves (or refutes) the frozen specification claims about them:

* `src/utils/typer.py` — the `TextTyper` incremental text synchronizer;
* `src/hotkeys/hotkey_manager.py` — the `HotkeyManager` debounced hotkey
  state machine, modelled as a discrete-event simulation with explicit
  millisecond timestamps;
* `src/llm/optimizer.py` — the `LLMOptimizer.optimize` call;
* `src/asr/sherpa_sense_voice_impl.py` — the `SherpaSenseVoiceASR` speech
  engine (its recognizer and VAD collaborators are abstracted as parameters);
* `src/main.py` — the `VoiceInputMethod` orchestrator.

Python strings are embedded as `List Char` (for the typer, where we reason by
induction on characters) or as Lean `String` (elsewhere).  Wall-clock times
are embedded as natural numbers counting milliseconds; the source's 0.8 s
long-press delay and 0.2 s release-debounce delay become 800 and 200.
-/

namespace VoiceFlow

/-! ## TextTyper (`src/utils/typer.py`)

State: `current_content`, the text the typer believes is on screen and
removable via backspace.  Keystroke side effects are reified as a list of
`KeyOp`s: each `keyboard.send('backspace')` is one `KeyOp.backspace` and each
`_paste_with_retry(text)` is one `KeyOp.paste text` (the retry loop and the
character-by-character fallback both ultimately inject exactly `text`). -/

inductive KeyOp where
  | backspace
  | paste (text : List Char)
deriving DecidableEq

structure TyperState where
  current_content : List Char
deriving DecidableEq

/-- `TextTyper._get_common_prefix_len`: length of the longest common
starting run of two strings (loop over `range(min_len)` returning the first
mismatch index, else `min_len`). -/
def commonPrefixLen : List Char → List Char → Nat
  | a :: as, b :: bs => if a = b then commonPrefixLen as bs + 1 else 0
  | _, _ => 0

/-- `TextTyper.update_stream`: if the target equals the current content, do
nothing; otherwise emit `len(current) - common_len` backspaces followed by a
paste of `new_text[common_len:]` (only if that suffix is nonempty), and set
`current_content = new_text`. -/
def update_stream (st : TyperState) (new_text : List Char) :
    TyperState × List KeyOp :=
  if new_text = st.current_content then (st, [])
  else
    let common_len := commonPrefixLen st.current_content new_text
    let delete_count := st.current_content.length - common_len
    let input_text := new_text.drop common_len
    let ops :=
      (if delete_count > 0 then List.replicate delete_count KeyOp.backspace
       else []) ++
      (if input_text.isEmpty then [] else [KeyOp.paste input_text])
    (⟨new_text⟩, ops)

/-- `TextTyper.commit_text`: `update_stream(text)` then reset
`current_content` to the empty string. -/
def commit_text (st : TyperState) (text : List Char) :
    TyperState × List KeyOp :=
  let r := update_stream st text
  (⟨[]⟩, r.2)

/-- `TextTyper.clear_temp`: erase everything currently tracked. -/
def clear_temp (st : TyperState) : TyperState × List KeyOp :=
  if st.current_content.length > 0 then
    (⟨[]⟩, List.replicate st.current_content.length KeyOp.backspace)
  else (st, [])

/-- `TextTyper.show_status`: `clear_temp` then paste the status text and
track it. -/
def show_status (st : TyperState) (text : List Char) :
    TyperState × List KeyOp :=
  let r := clear_temp st
  (⟨text⟩, r.2 ++ [KeyOp.paste text])

/-- Semantics of one keystroke operation on the literal screen content
(to the left of the cursor): a backspace removes the last character, a paste
appends its text. -/
def applyOp (screen : List Char) : KeyOp → List Char
  | .backspace => screen.dropLast
  | .paste t => screen ++ t

def applyOps (screen : List Char) (ops : List KeyOp) : List Char :=
  ops.foldl applyOp screen

/-! Basic facts about `commonPrefixLen`. -/

theorem commonPrefixLen_le_left (a b : List Char) :
    commonPrefixLen a b ≤ a.length := by
  induction a generalizing b with
  | nil => simp [commonPrefixLen]
  | cons x xs ih =>
    cases b with
    | nil => simp [commonPrefixLen]
    | cons y ys =>
      simp only [commonPrefixLen]
      split
      · simpa using ih ys
      · simp

theorem commonPrefixLen_le_right (a b : List Char) :
    commonPrefixLen a b ≤ b.length := by
  induction a generalizing b with
  | nil => simp [commonPrefixLen]
  | cons x xs ih =>
    cases b with
    | nil => simp [commonPrefixLen]
    | cons y ys =>
      simp only [commonPrefixLen]
      split
      · simpa using ih ys
      · simp

theorem commonPrefixLen_self (a : List Char) :
    commonPrefixLen a a = a.length := by
  induction a with
  | nil => simp [commonPrefixLen]
  | cons x xs ih => simp [commonPrefixLen, ih]

theorem take_commonPrefixLen_eq (a b : List Char) :
    a.take (commonPrefixLen a b) = b.take (commonPrefixLen a b) := by
  induction a generalizing b with
  | nil => simp [commonPrefixLen]
  | cons x xs ih =>
    cases b with
    | nil => simp [commonPrefixLen]
    | cons y ys =>
      simp only [commonPrefixLen]
      split
      · next h => simp [h, ih ys]
      · simp

theorem applyOps_append (screen : List Char) (l1 l2 : List KeyOp) :
    applyOps screen (l1 ++ l2) = applyOps (applyOps screen l1) l2 := by
  simp [applyOps, List.foldl_append]

theorem applyOps_backspaces (screen : List Char) (n : Nat) :
    applyOps screen (List.replicate n KeyOp.backspace) =
      screen.take (screen.length - n) := by
  induction n generalizing screen with
  | zero => simp [applyOps]
  | succ m ih =>
    rw [List.replicate_succ]
    show applyOps (applyOp screen KeyOp.backspace) (List.replicate m KeyOp.backspace) = _
    rw [ih]
    simp only [applyOp, List.dropLast_eq_take, List.take_take, List.length_take]
    congr 1
    omega

/-- Helper: the exact operation list `update_stream` emits, as a function of
the old content `D` and the target `T`. -/
theorem update_stream_ops (D T : List Char) :
    (update_stream ⟨D⟩ T).2 =
      List.replicate (D.length - commonPrefixLen D T) KeyOp.backspace ++
      (if T.drop (commonPrefixLen D T) = [] then []
       else [KeyOp.paste (T.drop (commonPrefixLen D T))]) := by
  unfold update_stream
  split
  · next h =>
    subst h
    simp [commonPrefixLen_self]
  · simp only []
    congr 1
    · split
      · rfl
      · next h =>
        simp at h
        have h0 : D.length - commonPrefixLen D T = 0 := by omega
        rw [h0]
        rfl
    · simp [List.isEmpty_iff]

/-- Helper: replaying `update_stream`'s operations on the old screen content
yields exactly the target. -/
theorem applyOps_update_stream (D T : List Char) :
    applyOps D (update_stream ⟨D⟩ T).2 = T := by
  rw [update_stream_ops, applyOps_append, applyOps_backspaces]
  have hle := commonPrefixLen_le_left D T
  have hler := commonPrefixLen_le_right D T
  have htake : D.length - (D.length - commonPrefixLen D T) = commonPrefixLen D T := by
    omega
  rw [htake, take_commonPrefixLen_eq]
  split
  · next h =>
    have : commonPrefixLen D T = T.length := by
      have := List.drop_eq_nil_iff.mp h
      omega
    simp [applyOps, this]
  · simp [applyOps, applyOp, List.take_append_drop]

/-- Helper: `update_stream` always leaves `current_content` equal to the
target. -/
theorem update_stream_fst (D T : List Char) :
    (update_stream ⟨D⟩ T).1 = ⟨T⟩ := by
  unfold update_stream
  split
  · next h => exact congrArg TyperState.mk h.symm
  · rfl

/-- C1: for every current content `D` and target `T`, `update_stream T`
moves the tracked DisplayedText from `D` to exactly `T`, emitting exactly
`len(D) - p` backspace keystrokes followed by injection of exactly the
suffix `T[p:]` (no paste at all when that suffix is empty), where `p` is the
longest common prefix length of `D` and `T`; replaying those keystrokes on a
screen showing `D` yields exactly `T`. -/
theorem C1_update_stream_transition (D T : List Char) :
    (update_stream ⟨D⟩ T).1.current_content = T ∧
    (update_stream ⟨D⟩ T).2 =
      List.replicate (D.length - commonPrefixLen D T) KeyOp.backspace ++
      (if T.drop (commonPrefixLen D T) = [] then []
       else [KeyOp.paste (T.drop (commonPrefixLen D T))]) ∧
    applyOps D (update_stream ⟨D⟩ T).2 = T :=
  ⟨by rw [update_stream_fst], update_stream_ops D T, applyOps_update_stream D T⟩

/-- C6: after `commit_text(T)` the synchronizer's tracked content is the
empty string, whatever it was before and whatever `T` is; consequently a
subsequent `clear_temp` emits no keystrokes (it cannot delete the committed
text). -/
theorem C6_commit_text_resets (D T : List Char) :
    (commit_text ⟨D⟩ T).1.current_content = [] ∧
    (clear_temp (commit_text ⟨D⟩ T).1).2 = [] :=
  ⟨rfl, rfl⟩

/-- C7: a second `update_stream(X)` immediately after `update_stream(X)`
emits zero keystroke operations (no backspaces, no pastes). -/
theorem C7_update_stream_idempotent (D X : List Char) :
    (update_stream (update_stream ⟨D⟩ X).1 X).2 = [] := by
  rw [update_stream_fst]
  unfold update_stream
  simp

/-! ## LLMOptimizer (`src/llm/optimizer.py`)

`optimize` is embedded with its two collaborators abstracted:
* `client : Bool` — whether `self.client` is set (the `OpenAI(...)`
  constructor may fail, leaving `self.client = None`);
* `call : String → Option String` — the whole `try` body up to and including
  the extraction `response.choices[0].message.content`; `none` models any
  exception raised there (network error, timeout, missing choices, `None`
  content, …), which the source catches and answers with the original text.

The embedding returns the produced text together with a flag recording
whether an LLM request was issued (the `try` block was entered). -/

/-- Python's `str.strip()`: remove leading and trailing whitespace
(embedded structurally over the character list, so that it evaluates by
kernel reduction). -/
def pyStrip (s : String) : String :=
  ⟨((s.data.dropWhile Char.isWhitespace).reverse.dropWhile
      Char.isWhitespace).reverse⟩

structure OptimizerModel where
  client : Bool
  call : String → Option String

/-- `LLMOptimizer.optimize`: guard on a missing client or an empty /
whitespace-only input; otherwise issue the request, return the original text
on any exception or on an empty (stripped) response, else the stripped
response content. -/
def optimize (m : OptimizerModel) (text : String) : String × Bool :=
  if ¬ m.client ∨ text = "" ∨ (pyStrip text).length < 1 then (text, false)
  else
    match m.call text with
    | none => (text, true)
    | some content =>
      let c := pyStrip content
      if c = "" then (text, true) else (c, true)

/-- C8: `optimize` returns the original text unchanged on any failure —
client unavailable, any exception during the request (network error,
timeout, malformed response), or an empty (whitespace-only) response
content.  It never raises: the embedding is a total function because every
exception path of the source is caught and mapped to the original text. -/
theorem C8_optimize_fallback (m : OptimizerModel) (text : String)
    (hfail : m.client = false ∨ m.call text = none ∨
      ∃ c, m.call text = some c ∧ pyStrip c = "") :
    (optimize m text).1 = text := by
  unfold optimize
  split
  · rfl
  · next hguard =>
    rcases hfail with hc | hcall | ⟨c, hcall, hct⟩
    · exact absurd (Or.inl (by simp [hc])) hguard
    · rw [hcall]
    · rw [hcall]
      simp [hct]

/-- Witness for C8 at a concrete failing input (request raises). -/
theorem C8_optimize_fallback_witness :
    (optimize ⟨true, fun _ => none⟩ "hello world").1 = "hello world" :=
  C8_optimize_fallback ⟨true, fun _ => none⟩ "hello world"
    (Or.inr (Or.inl rfl))

/-- C10: on an empty or whitespace-only input, `optimize` returns the text
unchanged and issues no LLM request at all (the guard short-circuits before
the `try` block). -/
theorem C10_optimize_blank_no_request (m : OptimizerModel) (text : String)
    (hblank : pyStrip text = "") :
    optimize m text = (text, false) := by
  unfold optimize
  rw [if_pos]
  right; right
  rw [hblank]
  decide

/-- Witness for C10 at a concrete whitespace-only input. -/
theorem C10_optimize_blank_no_request_witness :
    optimize ⟨true, fun _ => some "polished"⟩ "  " = ("  ", false) :=
  C10_optimize_blank_no_request ⟨true, fun _ => some "polished"⟩ "  " (by decide)

/-! ## HotkeyManager (`src/hotkeys/hotkey_manager.py`) — pure string helpers

Python's `sorted` on strings is lexicographic on code points; we implement
it directly (stable insertion sort over a boolean lexicographic order) so
that every definition evaluates by kernel reduction. -/

/-- Lexicographic `≤` on character lists (Python string comparison). -/
def charListLe : List Char → List Char → Bool
  | [], _ => true
  | _ :: _, [] => false
  | a :: as, b :: bs => if a = b then charListLe as bs else decide (a < b)

def strLe (a b : String) : Bool := charListLe a.data b.data

def insertSorted (s : String) : List String → List String
  | [] => [s]
  | t :: ts => if strLe s t then s :: t :: ts else t :: insertSorted s ts

/-- Python `sorted` on a list of strings. -/
def sortStrings : List String → List String
  | [] => []
  | s :: ss => insertSorted s (sortStrings ss)

/-- Python `'+'.flatten(...)`. -/
def joinPlus : List String → String
  | [] => ""
  | [s] => s
  | s :: rest => s ++ "+" ++ joinPlus rest

/-- Python `str.lower()` (per-character, as for the ASCII key names used
here). -/
def toLowerStr (s : String) : String := ⟨s.data.map Char.toLower⟩

/-- Python `str.split('+')` on a character list. -/
def splitPlus : List Char → List (List Char)
  | [] => [[]]
  | c :: cs =>
    let r := splitPlus cs
    if c = '+' then [] :: r
    else
      match r with
      | [] => [[c]]
      | h :: t => (c :: h) :: t

/-- The `replacements` dict of `HotkeyManager._normalize_hotkey`, as an
association list in source order. -/
def aliasReplacements : List (String × String) :=
  [("lctrl", "ctrl"), ("rctrl", "ctrl"), ("left ctrl", "ctrl"),
   ("right ctrl", "ctrl"), ("control", "ctrl"),
   ("lalt", "alt"), ("ralt", "alt"), ("left alt", "alt"),
   ("right alt", "alt"), ("option", "alt"),
   ("lshift", "shift"), ("rshift", "shift"), ("left shift", "shift"),
   ("right shift", "shift"),
   ("lwin", "windows"), ("rwin", "windows"), ("left windows", "windows"),
   ("right windows", "windows"), ("win", "windows"),
   ("esc", "esc"), ("escape", "esc")]

/-- `replacements.get(p, p)`. -/
def applyAlias (p : String) : String :=
  match aliasReplacements.find? (fun q => q.1 = p) with
  | some q => q.2
  | none => p

/-- `HotkeyManager._normalize_hotkey`:
`'+'.flatten(sorted([replacements.get(p, p) for p in
hotkey.lower().replace(' ', '').split('+')]))`.
Note the space removal happens *before* the alias lookup. -/
def normalize_hotkey (hotkey : String) : String :=
  let parts :=
    (splitPlus ((toLowerStr hotkey).data.filter (fun c => c ≠ ' '))).map
      (fun l => String.mk l)
  let normalized_parts := parts.map applyAlias
  joinPlus (sortStrings normalized_parts)

/-- C3 (refuting evaluation): the normalizer does not identify
`"Left Ctrl+F2"` with `"ctrl+f2"`.  Because `_normalize_hotkey` deletes all
spaces before consulting the alias dict, the part `"leftctrl"` misses the
dict key `"left ctrl"` and survives unresolved, so the two spellings
register under different callback-table keys.  (The spaced-alias entry in
the dict is evidence the code intended to resolve it.) -/
theorem C3_normalize_left_ctrl_mismatch :
    normalize_hotkey "Left Ctrl+F2" = "f2+leftctrl" ∧
    normalize_hotkey "ctrl+f2" = "ctrl+f2" ∧
    normalize_hotkey "Left Ctrl+F2" ≠ normalize_hotkey "ctrl+f2" := by
  refine ⟨by decide, by decide, by decide⟩

/-! ## HotkeyManager - debounced event state machine

The manager consumes OS key events on a hook thread and runs
`threading.Timer`s for long-press detection (0.8 s) and release debouncing
(0.2 s).  We embed it as a deterministic discrete-event simulation:

* physical events carry millisecond timestamps and arrive in time order;
* before each physical event, every pending timer whose expiry is `≤` the
  event's timestamp fires (earliest first; the long-press timer wins a tie,
  matching one serialization of the lock-guarded timer threads);
* after the last physical event all remaining timers fire.

Callback invocations are reified as `CallbackEvent`s; the registered
callback table only records which phases have callbacks. -/

inductive HotkeyType where
  | press
  | release
  | long_press
deriving DecidableEq

structure ComboCallbacks where
  has_press : Bool
  has_long_press : Bool
  has_release : Bool
deriving DecidableEq

/-- `self.hotkey_callbacks`, keyed by normalized combination string. -/
abbrev Registry := List (String × ComboCallbacks)

def lookupCombo (reg : Registry) (combo : String) : Option ComboCallbacks :=
  (reg.find? (fun p => p.1 = combo)).map Prod.snd

structure LongPressTimer where
  combo : String
  expiry : Nat
deriving DecidableEq

structure DebounceTimer where
  key : String
  expiry : Nat
  prev_combo : String
deriving DecidableEq

structure HMState where
  pressed_keys : List String
  long_press_timers : List LongPressTimer
  release_debounce_timers : List DebounceTimer
  long_press_triggered : List String
deriving DecidableEq

def initState : HMState := ⟨[], [], [], []⟩

structure CallbackEvent where
  time : Nat
  phase : HotkeyType
  combo : String
deriving DecidableEq

structure PhysEvent where
  time : Nat
  is_down : Bool
  key : String
deriving DecidableEq

/-- Millisecond embedding of the 0.8 s `threading.Timer` delay. -/
def LONG_PRESS_MS : Nat := 800

/-- Millisecond embedding of the 0.2 s release-debounce delay. -/
def DEBOUNCE_MS : Nat := 200

/-- `HotkeyManager._get_current_combo`:
`'+'.flatten(sorted(self.pressed_keys))`. -/
def currentCombo (pressed : List String) : String :=
  joinPlus (sortStrings pressed)

def removeDeb (l : List DebounceTimer) (k : String) : List DebounceTimer :=
  l.filter (fun t => t.key ≠ k)

def removeLP (l : List LongPressTimer) (c : String) : List LongPressTimer :=
  l.filter (fun t => t.combo ≠ c)

/-- The key-name remap of `HotkeyManager._on_keyboard_event` (applied to the
lower-cased `event.name` before dispatch). -/
def eventRemap : List (String × String) :=
  [("left ctrl", "ctrl"), ("right ctrl", "ctrl"), ("control", "ctrl"),
   ("left shift", "shift"), ("right shift", "shift"),
   ("left alt", "alt"), ("right alt", "alt"),
   ("left windows", "windows"), ("right windows", "windows"),
   ("win", "windows")]

def remapEventKey (raw : String) : String :=
  let n := toLowerStr raw
  match eventRemap.find? (fun p => p.1 = n) with
  | some p => p.2
  | none => n

/-- `HotkeyManager._handle_press`.  A key whose release is being debounced
is treated as never released: cancel the debounce timer and return.  A fresh
key is added to `pressed_keys`; if the resulting combo is registered, the
PRESS callback fires and (if a LONG_PRESS callback exists) a long-press
timer is (re)armed. -/
def handle_press (reg : Registry) (st : HMState) (key_name : String)
    (now : Nat) : HMState × List CallbackEvent :=
  if st.release_debounce_timers.any (fun t => t.key = key_name) then
    ({ st with release_debounce_timers :=
        removeDeb st.release_debounce_timers key_name }, [])
  else if key_name ∈ st.pressed_keys then (st, [])
  else
    let pressed := key_name :: st.pressed_keys
    let combo := currentCombo pressed
    match lookupCombo reg combo with
    | none => ({ st with pressed_keys := pressed }, [])
    | some cbs =>
      let evs := if cbs.has_press then [⟨now, HotkeyType.press, combo⟩] else []
      let lps :=
        if cbs.has_long_press then
          ⟨combo, now + LONG_PRESS_MS⟩ :: removeLP st.long_press_timers combo
        else st.long_press_timers
      ({ st with pressed_keys := pressed, long_press_timers := lps }, evs)

/-- `HotkeyManager._handle_release`: do not drop the key yet — capture the
current combo and arm a debounce timer that runs `_finalize_release` later.
No callback fires here. -/
def handle_release (st : HMState) (key_name : String) (now : Nat) : HMState :=
  if key_name ∉ st.pressed_keys then st
  else
    let prev_combo := currentCombo st.pressed_keys
    { st with release_debounce_timers :=
        ⟨key_name, now + DEBOUNCE_MS, prev_combo⟩ ::
          removeDeb st.release_debounce_timers key_name }

/-- `HotkeyManager._finalize_release` (the debounce timer body): drop the
key; if it was already gone, stop.  If the captured previous combo is
registered, cancel its long-press timer and fire RELEASE; finally clear the
combo's long-press-triggered mark. -/
def finalize_release (reg : Registry) (st0 : HMState)
    (key_name prev_combo : String) (now : Nat) :
    HMState × List CallbackEvent :=
  let st1 :=
    { st0 with release_debounce_timers :=
                 removeDeb st0.release_debounce_timers key_name }
  if key_name ∈ st1.pressed_keys then
    let st2 := { st1 with pressed_keys := st1.pressed_keys.erase key_name }
    let r : HMState × List CallbackEvent :=
      match lookupCombo reg prev_combo with
      | some cbs =>
        ({ st2 with long_press_timers :=
            removeLP st2.long_press_timers prev_combo },
         if cbs.has_release then [⟨now, HotkeyType.release, prev_combo⟩]
         else [])
      | none => (st2, [])
    ({ r.1 with long_press_triggered :=
        r.1.long_press_triggered.erase prev_combo }, r.2)
  else (st1, [])

/-- `HotkeyManager._trigger_long_press` (the long-press timer body): fire
the captured callback only if the combo is still the current one, then drop
the timer handle. -/
def trigger_long_press (st : HMState) (combo : String) (now : Nat) :
    HMState × List CallbackEvent :=
  let r :=
    if currentCombo st.pressed_keys = combo then
      ({ st with long_press_triggered :=
          if combo ∈ st.long_press_triggered then st.long_press_triggered
          else combo :: st.long_press_triggered },
       [⟨now, HotkeyType.long_press, combo⟩])
    else (st, [])
  ({ r.1 with long_press_timers := removeLP r.1.long_press_timers combo }, r.2)

def minNat? : List Nat → Option Nat
  | [] => none
  | n :: ns =>
    match minNat? ns with
    | none => some n
    | some m => some (min n m)

/-- Earliest expiry among all pending timers. -/
def minExpiry? (st : HMState) : Option Nat :=
  minNat? (st.long_press_timers.map (fun t => t.expiry) ++
    st.release_debounce_timers.map (fun t => t.expiry))

def dueBefore (e : Nat) : Option Nat → Bool
  | none => true
  | some d => decide (e ≤ d)

def totalTimers (st : HMState) : Nat :=
  st.long_press_timers.length + st.release_debounce_timers.length

/-- Fire every pending timer whose expiry is within `deadline` (`none` =
no deadline), earliest first; the fuel is an upper bound on the number of
pending timers (each firing consumes at least its own timer). -/
def fireDue (reg : Registry) : Nat → HMState → Option Nat →
    HMState × List CallbackEvent
  | 0, st, _ => (st, [])
  | fuel + 1, st, deadline =>
    match minExpiry? st with
    | none => (st, [])
    | some e =>
      if dueBefore e deadline then
        match st.long_press_timers.find? (fun t => t.expiry = e) with
        | some t =>
          let r := trigger_long_press st t.combo e
          let r2 := fireDue reg fuel r.1 deadline
          (r2.1, r.2 ++ r2.2)
        | none =>
          match st.release_debounce_timers.find? (fun t => t.expiry = e) with
          | some t =>
            let r := finalize_release reg st t.key t.prev_combo e
            let r2 := fireDue reg fuel r.1 deadline
            (r2.1, r.2 ++ r2.2)
          | none => (st, [])
      else (st, [])

/-- Run the manager over a time-ordered list of physical key events
(`_on_keyboard_event` dispatch, with timers interleaved at their expiry
times and flushed after the last event). -/
def runEvents (reg : Registry) (st : HMState) :
    List PhysEvent → HMState × List CallbackEvent
  | [] => fireDue reg (totalTimers st) st none
  | e :: rest =>
    let r1 := fireDue reg (totalTimers st) st (some e.time)
    let key := remapEventKey e.key
    let r2 := if e.is_down then handle_press reg r1.1 key e.time
              else (handle_release r1.1 key e.time, [])
    let r3 := runEvents reg r2.1 rest
    (r3.1, r1.2 ++ r2.2 ++ r3.2)

def run (reg : Registry) (evs : List PhysEvent) :
    HMState × List CallbackEvent :=
  runEvents reg initState evs

def countPhase (evs : List CallbackEvent) (ph : HotkeyType) : Nat :=
  (evs.filter (fun ev => ev.phase = ph)).length

/-- The chord `a+b` registered with all three callbacks. -/
def chordReg : Registry := [("a+b", ⟨true, true, true⟩)]

/-- One clean press-hold-release of the chord: both keys go down, are held
~1 s, and are lifted in the same event burst (10 ms apart, well inside the
200 ms debounce window). -/
def chordTrace : List PhysEvent :=
  [⟨0, true, "a"⟩, ⟨10, true, "b"⟩, ⟨1000, false, "a"⟩, ⟨1010, false, "b"⟩]

/-- C2 (counterexample): for a 2-key chord whose keys are released in the
same event burst, the RELEASE callback fires twice, not once.  Both
per-key debounce timers capture `prev_combo = "a+b"` before either
`_finalize_release` has removed a key, so each finalization fires RELEASE
for the still-registered combo.  (PRESS still fires exactly once.) -/
theorem C2_chord_double_release :
    countPhase (run chordReg chordTrace).2 HotkeyType.release = 2 ∧
    countPhase (run chordReg chordTrace).2 HotkeyType.press = 1 := by
  refine ⟨by decide, by decide⟩

theorem currentCombo_singleton (k : String) : currentCombo [k] = k := rfl

theorem lookupCombo_single (k : String) (cbs : ComboCallbacks) :
    lookupCombo [(k, cbs)] k = some cbs := by
  simp [lookupCombo]

set_option maxRecDepth 8192 in
/-- C2 (amended, proved): one clean press-hold-release of a registered
*single-key* combination, from the idle state: press at `t0`, physical
release at `t1`.  The full callback trace is exactly

  `PRESS` at `t0`, then `LONG_PRESS` at `t0 + 800` if and only if the
  long-press timer elapses while the combination is still active in the
  debounced key state (`t0 + 800 ≤ t1 + 200`), then `RELEASE` at the
  debounced finalization time `t1 + 200`.

Hence PRESS fires exactly once, RELEASE fires exactly once and strictly
after PRESS, and LONG_PRESS fires at most once and only while the
combination was still active. -/
theorem C2_single_key_clean_cycle (k : String) (t0 t1 : Nat)
    (hk : remapEventKey k = k) (ht : t0 < t1) :
    (run [(k, ⟨true, true, true⟩)]
        [⟨t0, true, k⟩, ⟨t1, false, k⟩]).2 =
      [⟨t0, HotkeyType.press, k⟩] ++
      (if t0 + LONG_PRESS_MS ≤ t1 + DEBOUNCE_MS then
        [⟨t0 + LONG_PRESS_MS, HotkeyType.long_press, k⟩]
       else []) ++
      [⟨t1 + DEBOUNCE_MS, HotkeyType.release, k⟩] := by
  simp only [LONG_PRESS_MS, DEBOUNCE_MS]
  by_cases hLP : t0 + 800 ≤ t1 + 200
  · by_cases hE : t0 + 800 ≤ t1
    · simp [run, runEvents, initState, totalTimers, fireDue, minExpiry?,
        minNat?, dueBefore, hk, handle_press, handle_release,
        finalize_release, trigger_long_press, currentCombo_singleton,
        lookupCombo_single, removeDeb, removeLP, hE, hLP,
        LONG_PRESS_MS, DEBOUNCE_MS]
    · simp [run, runEvents, initState, totalTimers, fireDue, minExpiry?,
        minNat?, dueBefore, hk, handle_press, handle_release,
        finalize_release, trigger_long_press, currentCombo_singleton,
        lookupCombo_single, removeDeb, removeLP, hE, hLP,
        LONG_PRESS_MS, DEBOUNCE_MS, Nat.min_eq_left]
  · have hE : ¬ t0 + 800 ≤ t1 := by omega
    have hne : ¬ (t0 + 800 = t1 + 200) := by omega
    have hge : t1 + 200 ≤ t0 + 800 := by omega
    simp [run, runEvents, initState, totalTimers, fireDue, minExpiry?,
      minNat?, dueBefore, hk, handle_press, handle_release,
      finalize_release, trigger_long_press, currentCombo_singleton,
      lookupCombo_single, removeDeb, removeLP, hE, hLP, hne, hge,
      LONG_PRESS_MS, DEBOUNCE_MS, Nat.min_eq_right]

/-- Witness for C2 at a concrete input: key `f2` pressed at t = 0 ms and
released at t = 1000 ms. -/
theorem C2_single_key_clean_cycle_witness :
    remapEventKey "f2" = "f2" ∧ (0 : Nat) < 1000 ∧
    (run [("f2", ⟨true, true, true⟩)]
        [⟨0, true, "f2"⟩, ⟨1000, false, "f2"⟩]).2 =
      [⟨0, HotkeyType.press, "f2"⟩] ++
      (if 0 + LONG_PRESS_MS ≤ 1000 + DEBOUNCE_MS then
        [⟨0 + LONG_PRESS_MS, HotkeyType.long_press, "f2"⟩]
       else []) ++
      [⟨1000 + DEBOUNCE_MS, HotkeyType.release, "f2"⟩] :=
  ⟨by decide, by decide,
    C2_single_key_clean_cycle "f2" 0 1000 (by decide) (by decide)⟩

/-- C4: while a combination is active (its key `k` is among the pressed
keys, no timers pending), a release of `k` at `t1` followed by a re-press of
`k` at `t2` strictly inside the debounce window (`t2 < t1 + 200`) produces
zero callback events of any kind — in particular zero RELEASE and zero
PRESS for the governing combination — and leaves the manager state, hence
the active combination, exactly as it was.  This holds for every registry
and every set of other keys still held down. -/
theorem C4_debounced_repress_swallowed (reg : Registry) (k : String)
    (P : List String) (trig : List String) (t1 t2 : Nat)
    (hk : remapEventKey k = k) (hmem : k ∈ P) (h12 : t1 ≤ t2)
    (hwin : t2 < t1 + DEBOUNCE_MS) :
    runEvents reg ⟨P, [], [], trig⟩
        [⟨t1, false, k⟩, ⟨t2, true, k⟩] =
      (⟨P, [], [], trig⟩, []) := by
  have hwin' : ¬ (t1 + 200 ≤ t2) := by
    simp only [DEBOUNCE_MS] at hwin
    omega
  simp [runEvents, totalTimers, fireDue, minExpiry?, minNat?, dueBefore,
    hk, handle_press, handle_release, hmem, removeDeb, hwin',
    DEBOUNCE_MS]

/-- Witness for C4 at a concrete input: chord `ctrl+f2` held, `f2` released
at t = 1000 ms and re-pressed at t = 1100 ms (inside the 200 ms window). -/
theorem C4_debounced_repress_swallowed_witness :
    remapEventKey "f2" = "f2" ∧ "f2" ∈ ["f2", "ctrl"] ∧
    (1000 : Nat) ≤ 1100 ∧ (1100 : Nat) < 1000 + DEBOUNCE_MS ∧
    runEvents [("ctrl+f2", ⟨true, true, true⟩)] ⟨["f2", "ctrl"], [], [], []⟩
        [⟨1000, false, "f2"⟩, ⟨1100, true, "f2"⟩] =
      (⟨["f2", "ctrl"], [], [], []⟩, []) :=
  ⟨by decide, by decide, by decide, by decide,
    C4_debounced_repress_swallowed [("ctrl+f2", ⟨true, true, true⟩)] "f2"
      ["f2", "ctrl"] [] 1000 1100 (by decide) (by decide) (by decide)
      (by decide)⟩

/-! ## SherpaSenseVoiceASR (`src/asr/sherpa_sense_voice_impl.py`)

The engine composes two black-box collaborators, which the embedding takes
as parameters over an abstract sample type `α` (float32 in the source):

* the offline recognizer — `recognize sample_rate samples` stands for
  `create_stream(); accept_waveform(sample_rate, samples); decode_stream();
  result.text`;
* the optional VAD — its mutable state is a `VadState` (current
  speech-detected flag plus the queue of completed segments) and its
  `accept_waveform` is the abstract transition `vadAccept`.  `self.vad` is
  `none` exactly when the engine was constructed without a VAD asset
  (degraded offline mode).

Callback invocations (`on_partial_result` / `on_final_result`) are reified
as `ASREvent`s; wall-clock `time.time()` is passed in as a millisecond
timestamp (the 0.25 s partial-decode cadence becomes 250). -/

structure VadState (α : Type) where
  detected : Bool
  segments : List (List α)

structure EngineConfig (α : Type) where
  recognize : Nat → List α → String
  vadAccept : VadState α → List α → VadState α

structure EngineState (α : Type) where
  vad : Option (VadState α)
  buffer : List α
  started : Bool
  started_time : Nat

inductive ASREvent where
  | onPartialText (text : String)
  | onFinalText (text : String)
deriving DecidableEq

/-- `SherpaSenseVoiceASR.start_stream`: reset the VAD (if any) and the
rolling buffer / started flag. -/
def start_stream (st : EngineState α) : EngineState α :=
  { vad := st.vad.map (fun _ => ⟨false, []⟩),
    buffer := [], started := false, started_time := 0 }

/-- `SherpaSenseVoiceASR.feed_audio`.  Without a VAD: pure buffering, no
callbacks.  With a VAD: feed the VAD, maintain the ≤2 s rolling buffer,
latch the started flag on speech detection, decode the rolling buffer at
the 250 ms cadence for a partial result, then decode and flush every
completed VAD segment as a final result (each iteration also clears the
rolling buffer and the started flag). -/
def feed_audio (cfg : EngineConfig α) (st : EngineState α)
    (samples : List α) (sample_rate : Nat) (now : Nat) :
    EngineState α × List ASREvent :=
  match st.vad with
  | none => ({ st with buffer := st.buffer ++ samples }, [])
  | some v0 =>
    let v1 := cfg.vadAccept v0 samples
    let buf1 := st.buffer ++ samples
    let max_len := 16000 * 2
    let buf2 :=
      if ¬ st.started ∧ buf1.length > max_len then
        buf1.drop (buf1.length - max_len)
      else buf1
    let speech_begins := v1.detected ∧ ¬ st.started
    let started1 := if speech_begins then true else st.started
    let stime1 := if speech_begins then now else st.started_time
    let do_partial_decode := started1 ∧ buf2.length > 0 ∧ now - stime1 > 250
    let stime2 := if do_partial_decode then now else stime1
    let evsP :=
      if do_partial_decode then
        let text := pyStrip (cfg.recognize sample_rate buf2)
        if text ≠ "" then [ASREvent.onPartialText text] else []
      else []
    let evsF := v1.segments.filterMap (fun seg =>
      let raw_text := pyStrip (cfg.recognize sample_rate seg)
      if raw_text ≠ "" then some (ASREvent.onFinalText raw_text) else none)
    let buf3 := if v1.segments.isEmpty then buf2 else []
    let started2 := if v1.segments.isEmpty then started1 else false
    (⟨some { v1 with segments := [] }, buf3, started2, stime2⟩, evsP ++ evsF)

/-- `SherpaSenseVoiceASR.stop_stream`: without a VAD, one offline decode of
the whole accumulated buffer; with a VAD, decode the rolling buffer if a
segment was in progress.  Either way the stream state is reset. -/
def stop_stream (cfg : EngineConfig α) (st : EngineState α) :
    EngineState α × String :=
  match st.vad with
  | none =>
    let result :=
      if st.buffer.length > 0 then pyStrip (cfg.recognize 16000 st.buffer)
      else ""
    (start_stream st, result)
  | some _ =>
    let result :=
      if st.started ∧ st.buffer.length > 0 then
        let raw_text := pyStrip (cfg.recognize 16000 st.buffer)
        if raw_text ≠ "" then raw_text else ""
      else ""
    (start_stream st, result)

/-- `SherpaSenseVoiceASR.transcribe_offline`. -/
def transcribe_offline (cfg : EngineConfig α) (samples : List α)
    (sample_rate : Nat) : String :=
  pyStrip (cfg.recognize sample_rate samples)

/-- One `feed_audio` call as observed by the orchestrator. -/
structure FeedCall (α : Type) where
  samples : List α
  sample_rate : Nat
  now : Nat

/-- A whole sequence of `feed_audio` calls, accumulating emitted events. -/
def feedAll (cfg : EngineConfig α) (st : EngineState α) :
    List (FeedCall α) → EngineState α × List ASREvent
  | [] => (st, [])
  | c :: cs =>
    let r := feed_audio cfg st c.samples c.sample_rate c.now
    let r2 := feedAll cfg r.1 cs
    (r2.1, r.2 ++ r2.2)

/-- Helper: in degraded mode (no VAD), feeding only concatenates onto the
buffer and never emits an event. -/
theorem feedAll_degraded (cfg : EngineConfig α) (b : List α) (s : Bool)
    (t : Nat) (calls : List (FeedCall α)) :
    feedAll cfg ⟨none, b, s, t⟩ calls =
      (⟨none, b ++ (calls.map (fun c => c.samples)).flatten, s, t⟩, []) := by
  induction calls generalizing b with
  | nil => simp [feedAll]
  | cons c cs ih =>
    simp [feedAll, feed_audio, ih]

/-- C5: an engine constructed without a VAD asset (degraded offline mode),
started via `start_stream` (state `⟨none, [], false, 0⟩`): over any
sequence of `feed_audio` calls no callback fires at all — in particular
`on_partial` is never invoked — and `stop_stream` returns exactly
`transcribe_offline` of the concatenation of all samples fed (decoded at
the hard-coded 16 kHz), given only that the black-box recognizer
transcribes the empty sample list to (stripped) empty text. -/
theorem C5_degraded_offline_equivalence {α : Type} (cfg : EngineConfig α)
    (calls : List (FeedCall α))
    (hrec : pyStrip (cfg.recognize 16000 []) = "") :
    (feedAll cfg ⟨none, [], false, 0⟩ calls).2 = [] ∧
    (stop_stream cfg (feedAll cfg ⟨none, [], false, 0⟩ calls).1).2 =
      transcribe_offline cfg ((calls.map (fun c => c.samples)).flatten) 16000 := by
  rw [feedAll_degraded]
  refine ⟨rfl, ?_⟩
  by_cases h : (calls.map (fun c => c.samples)).flatten = []
  · simp [stop_stream, transcribe_offline, h, hrec.symm]
  · have hlen : ((calls.map (fun c => c.samples)).flatten).length > 0 := by
      cases hj : (calls.map (fun c => c.samples)).flatten with
      | nil => exact absurd hj h
      | cons x xs => simp [hj]
    simp only [stop_stream, List.nil_append, transcribe_offline]
    rw [if_pos hlen]

/-- Witness for C5 at a concrete input: a trivial recognizer over `Nat`
samples, fed two chunks. -/
theorem C5_degraded_offline_equivalence_witness :
    pyStrip ((⟨fun _ _ => "", fun v _ => v⟩ :
        EngineConfig Nat).recognize 16000 []) = "" ∧
    ((feedAll (⟨fun _ _ => "", fun v _ => v⟩ : EngineConfig Nat)
        ⟨none, [], false, 0⟩ [⟨[1, 2], 16000, 0⟩, ⟨[3], 16000, 100⟩]).2 = [] ∧
    (stop_stream (⟨fun _ _ => "", fun v _ => v⟩ : EngineConfig Nat)
        (feedAll (⟨fun _ _ => "", fun v _ => v⟩ : EngineConfig Nat)
          ⟨none, [], false, 0⟩
          [⟨[1, 2], 16000, 0⟩, ⟨[3], 16000, 100⟩]).1).2 =
      transcribe_offline (⟨fun _ _ => "", fun v _ => v⟩ : EngineConfig Nat)
        (([⟨[1, 2], 16000, 0⟩, ⟨[3], 16000, 100⟩] :
            List (FeedCall Nat)).map (fun c => c.samples)).flatten 16000) :=
  ⟨rfl, C5_degraded_offline_equivalence _ _ rfl⟩

/-! ## VoiceInputMethod orchestrator (`src/main.py`)

The orchestrator's interactions with the speech engine are reified as
`EngineCall`s; the audio chunks pulled from the recorder during one session
are given as a list.  A whole LLM-polished session
(`start_llm_recording_task` → `_process_loop` → `stop_any_task` →
`_finish_llm_task` → `_transcribe_and_paste(use_llm=True)`) is composed in
`llm_session`. -/

inductive TaskType where
  | std
  | llm
deriving DecidableEq

inductive AppMode where
  | stream
  | offline
deriving DecidableEq

inductive EngineCall (α : Type) where
  | feedAudio (chunk : List α)
  | startStreamCall
  | stopStreamCall
  | transcribeOffline (samples : List α)

/-- `VoiceInputMethod._process_loop`: for each pulled chunk, feed the ASR
only when the current task is `std` and the configured mode is `stream`;
otherwise append the chunk to the session buffer.  Returns the final
session buffer and the engine calls issued. -/
def process_loop (current_task : Option TaskType) (default_mode : AppMode)
    (audio_buffer : List (List α)) :
    List (List α) → List (List α) × List (EngineCall α)
  | [] => (audio_buffer, [])
  | chunk :: rest =>
    if current_task = some TaskType.std ∧ default_mode = AppMode.stream then
      let r := process_loop current_task default_mode audio_buffer rest
      (r.1, EngineCall.feedAudio chunk :: r.2)
    else
      process_loop current_task default_mode (audio_buffer ++ [chunk]) rest

/-- `VoiceInputMethod.on_partial_text`: type a partial result only when the
current task is `std` and the mode is `stream`. -/
def on_partial_text (current_task : Option TaskType)
    (default_mode : AppMode) (typer : TyperState) (text : List Char) :
    TyperState × List KeyOp :=
  if current_task = some TaskType.std ∧ default_mode = AppMode.stream then
    update_stream typer text
  else (typer, [])

def statusTooShort : List Char := "(( ⚠️ 时间太短 ))".data

def statusPolish : List Char := "(( ✨ AI 润色中... ))".data

def statusTranscribing : List Char := "(( ⏳ 转录中... ))".data

def statusNothing : List Char := "(( ❌ 未识别到内容 ))".data

def statusAiRecording : List Char := "(( ✨ AI 思考录音... ))".data

/-- `VoiceInputMethod._transcribe_and_paste`: on an empty session buffer,
show a "too short" status and clear it; otherwise run exactly one offline
transcription of the concatenated buffer, then either report "nothing
recognized" or (optionally LLM-polishing first) commit the text. -/
def transcribe_and_paste (cfg : EngineConfig α) (opt : OptimizerModel)
    (use_llm : Bool) (audio_buffer : List (List α)) (typer : TyperState) :
    TyperState × List KeyOp × List (EngineCall α) :=
  if audio_buffer.isEmpty then
    let r1 := show_status typer statusTooShort
    let r2 := clear_temp r1.1
    (r2.1, r1.2 ++ r2.2, [])
  else
    let r1 := show_status typer
      (if use_llm then statusPolish else statusTranscribing)
    let full_audio := audio_buffer.flatten
    let text := transcribe_offline cfg full_audio 16000
    if text = "" then
      let r2 := show_status r1.1 statusNothing
      let r3 := clear_temp r2.1
      (r3.1, r1.2 ++ r2.2 ++ r3.2,
       [EngineCall.transcribeOffline full_audio])
    else
      let final_text := if use_llm then (optimize opt text).1 else text
      let r2 := clear_temp r1.1
      let r3 := commit_text r2.1 final_text.data
      (r3.1, r1.2 ++ r2.2 ++ r3.2,
       [EngineCall.transcribeOffline full_audio])

/-- One whole LLM-polished dictation session: `start_llm_recording_task`
(status display, fresh session buffer, recording started but *no*
`start_stream`), the drain loop over the pulled chunks with
`current_task = llm`, then `stop_any_task` → `_finish_llm_task` →
`_transcribe_and_paste(use_llm=True)`. -/
def llm_session (cfg : EngineConfig α) (opt : OptimizerModel)
    (default_mode : AppMode) (typer : TyperState) (chunks : List (List α)) :
    TyperState × List KeyOp × List (EngineCall α) :=
  let r1 := show_status typer statusAiRecording
  let loop := process_loop (some TaskType.llm) default_mode [] chunks
  let fin := transcribe_and_paste cfg opt true loop.1 r1.1
  (fin.1, r1.2 ++ fin.2.1, loop.2 ++ fin.2.2)

/-- Helper: with the LLM task current, the drain loop buffers every chunk
in order and issues no engine call at all. -/
theorem process_loop_llm (default_mode : AppMode)
    (acc chunks : List (List α)) :
    process_loop (some TaskType.llm) default_mode acc chunks =
      (acc ++ chunks, []) := by
  induction chunks generalizing acc with
  | nil => simp [process_loop]
  | cons c cs ih => simp [process_loop, ih]

/-- C9: during an LLM-polished dictation session the orchestrator issues no
`feed_audio` (and no stream start/stop) to the speech engine: the engine is
touched exactly once, by a single offline transcription of the concatenated
session buffer after the session ends (and not at all if no audio was
captured).  Moreover `on_partial_text` types nothing while the current task
is the LLM task, whatever the configured mode. -/
theorem C9_llm_session_fully_offline (cfg : EngineConfig α)
    (opt : OptimizerModel) (default_mode : AppMode) (typer : TyperState)
    (chunks : List (List α)) :
    (llm_session cfg opt default_mode typer chunks).2.2 =
      (if chunks.isEmpty then []
       else [EngineCall.transcribeOffline chunks.flatten]) ∧
    (∀ c, EngineCall.feedAudio c ∉
      (llm_session cfg opt default_mode typer chunks).2.2) ∧
    (∀ (t : TyperState) (text : List Char),
      on_partial_text (some TaskType.llm) default_mode t text = (t, [])) := by
  have hcalls : (llm_session cfg opt default_mode typer chunks).2.2 =
      (if chunks.isEmpty then []
       else [EngineCall.transcribeOffline chunks.flatten]) := by
    cases chunks with
    | nil => simp [llm_session, process_loop_llm, transcribe_and_paste]
    | cons c cs =>
      simp only [llm_session, process_loop_llm, List.nil_append]
      rw [transcribe_and_paste]
      simp only [List.isEmpty_cons, Bool.false_eq_true, if_false]
      split <;> simp
  refine ⟨hcalls, ?_, ?_⟩
  · intro c
    rw [hcalls]
    split <;> simp
  · intro t text
    simp [on_partial_text]

end VoiceFlow
